import Mathlib

/-!
Verification of the S3 file manager web app (`src/main.py`) against its
natural-language specification.

The remote object-storage backend (the supabase client, an external
collaborator of the repository) is modelled from the spec, section 4.2
"Storage Gateway Adapter".  The Python helpers `list_bucket_objects`,
`remove_all_in_bucket`, `copy_or_move_files`, `valid_filename`,
`valid_bucket_name` and the handlers `delete_bucket` and `file_action`
are shallow embeddings of the functions of the same names in
`src/main.py`, with the backend state passed explicitly and every
backend call recorded in a trace.
-/

/-- Byte strings are lists of naturals (one per byte). -/
abbrev Bytes := List Nat

/-- The files of one bucket: an association list from object name to content,
in listing order. -/
abbrev BucketFiles := List (String × Bytes)

/-- The backend state: an association list from bucket name to its files. -/
abbrev Storage := List (String × BucketFiles)

/-- One backend API call, recorded so that theorems can state exactly which
calls an embedded handler performs and in which order. -/
inductive Event where
  | listObjects (bucket : String)
  | download (bucket : String) (name : String)
  | upload (bucket : String) (name : String)
  | removeObjs (bucket : String) (names : List String)
  | deleteBucketCall (bucket : String)
  deriving DecidableEq, Repr

/-- First bucket with the given name, if any. -/
def findBucket (st : Storage) (b : String) : Option BucketFiles :=
  match st with
  | [] => none
  | (n, fs) :: rest => if n = b then some fs else findBucket rest b

/-- Replace the contents of the first bucket named `b` (no-op when absent). -/
def setBucket (st : Storage) (b : String) (fs : BucketFiles) : Storage :=
  match st with
  | [] => []
  | (n, g) :: rest => if n = b then (n, fs) :: rest else (n, g) :: setBucket rest b fs

/-- Remove the first bucket named `b` from the state (no-op when absent). -/
def eraseBucket (st : Storage) (b : String) : Storage :=
  match st with
  | [] => []
  | (n, g) :: rest => if n = b then rest else (n, g) :: eraseBucket rest b

/-- Modelled from the spec, 4.2: `listObjects(bucket)` returns the object
descriptors of the bucket (here: their names, the only field `src/main.py`
reads).  A raw backend failure is an exception; the one failure cause
modelled is a missing bucket. -/
def backendList (st : Storage) (b : String) : Except Unit (List String) :=
  match findBucket st b with
  | some fs => Except.ok (fs.map Prod.fst)
  | none => Except.error ()

/-- Modelled from the spec, 4.2: `download(bucket, name)` returns the bytes,
or empty/null (`none`) when the object is absent.  An absent bucket yields an
absent object. -/
def backendDownload (st : Storage) (b : String) (f : String) : Option Bytes :=
  match findBucket st b with
  | some fs => (fs.find? (fun p => p.1 == f)).map Prod.snd
  | none => none

/-- Modelled from the spec, 4.2: `upload(bucket, name, bytes)` stores the
object in the bucket; a backend rejection (modelled: missing bucket) is an
exception. -/
def backendUpload (st : Storage) (b : String) (f : String) (data : Bytes) :
    Except Unit Storage :=
  match findBucket st b with
  | some fs => Except.ok (setBucket st b (fs ++ [(f, data)]))
  | none => Except.error ()

/-- Modelled from the spec, 4.2: `remove(bucket, names)` deletes the batch of
named objects from the bucket; a backend rejection (modelled: missing bucket)
is an exception. -/
def backendRemove (st : Storage) (b : String) (names : List String) :
    Except Unit Storage :=
  match findBucket st b with
  | some fs => Except.ok (setBucket st b (fs.filter (fun p => !(names.contains p.1))))
  | none => Except.error ()

/-- Modelled from the spec, 4.2: `deleteBucket(name)` fails with a backend
error when the backend rejects it (modelled: the bucket is missing or not
empty), and otherwise deletes the bucket. -/
def backendDeleteBucket (st : Storage) (b : String) : Except Unit Storage :=
  match findBucket st b with
  | some [] => Except.ok (eraseBucket st b)
  | some (_ :: _) => Except.error ()
  | none => Except.error ()

/-- Equality of `Except` values is decidable when it is on both sides. -/
instance {ε α : Type} [DecidableEq ε] [DecidableEq α] : DecidableEq (Except ε α) := fun x y =>
  match x, y with
  | Except.ok a, Except.ok b =>
      if h : a = b then isTrue (by rw [h]) else isFalse (by simp [h])
  | Except.ok _, Except.error _ => isFalse (by simp)
  | Except.error _, Except.ok _ => isFalse (by simp)
  | Except.error e, Except.error e' =>
      if h : e = e' then isTrue (by rw [h]) else isFalse (by simp [h])

/-- Result of an embedded helper or handler: final backend state, the backend
calls it made in order, and either the returned value or an uncaught
exception (`Except.error`). -/
structure Res (α : Type) where
  st : Storage
  trace : List Event
  val : Except Unit α
  deriving DecidableEq, Repr

/-- A single-quote character, written via its code point, so that message
strings can be assembled exactly as the Python f-strings produce them. -/
def sQuote : String := String.mk [Char.ofNat 39]

/-- The message of line 47 of `src/main.py`. -/
def collisionMsg (f dest_bucket : String) : String :=
  "File " ++ sQuote ++ f ++ sQuote ++ " already exists in destination bucket " ++ sQuote ++ dest_bucket ++ sQuote

/-- The message of line 51 of `src/main.py`. -/
def notFoundMsg (f src_bucket : String) : String :=
  "File " ++ sQuote ++ f ++ sQuote ++ " not found in source bucket " ++ sQuote ++ src_bucket ++ sQuote

/-- Embedding of `list_bucket_objects` (src/main.py lines 27-32): lists the
bucket and converts any backend failure into an empty list.  The caller
records the `Event.listObjects` call. -/
def list_bucket_objects (st : Storage) (bucket_name : String) : List String :=
  match backendList st bucket_name with
  | Except.ok res => res
  | Except.error _ => []

/-- Embedding of `remove_all_in_bucket` (src/main.py lines 34-38): list the
bucket (errors swallowed), then remove all listed names in one batch when
there are any.  The batch remove is not guarded by a try block, so its
failure is an uncaught exception. -/
def remove_all_in_bucket (st : Storage) (bucket_name : String) : Res Unit :=
  let files := list_bucket_objects st bucket_name
  let names := files
  if !names.isEmpty then
    match backendRemove st bucket_name names with
    | Except.ok st1 =>
        { st := st1
          trace := [Event.listObjects bucket_name, Event.removeObjs bucket_name names]
          val := Except.ok () }
    | Except.error e =>
        { st := st
          trace := [Event.listObjects bucket_name, Event.removeObjs bucket_name names]
          val := Except.error e }
  else
    { st := st, trace := [Event.listObjects bucket_name], val := Except.ok () }

/-- The per-file loop of `copy_or_move_files` (src/main.py lines 44-57).
For each file: list the destination without any try block (a failure is an
uncaught exception), stop with `collisionMsg` on a name collision, download
from the source and stop with `notFoundMsg` when the result is falsy
(absent object, i.e. `none`, or empty bytes), upload to the destination, and
when moving also remove the file from the source. -/
def copy_or_move_loop (st : Storage) (src_bucket : String) (files : List String)
    (dest_bucket : String) (move : Bool) : Res String :=
  match files with
  | [] =>
      { st := st, trace := []
        val := Except.ok (if move then "Files moved successfully" else "Files copied successfully") }
  | f :: rest =>
      match backendList st dest_bucket with
      | Except.error e =>
          { st := st, trace := [Event.listObjects dest_bucket], val := Except.error e }
      | Except.ok existing =>
          if existing.contains f then
            { st := st, trace := [Event.listObjects dest_bucket]
              val := Except.ok (collisionMsg f dest_bucket) }
          else
            match backendDownload st src_bucket f with
            | none =>
                { st := st
                  trace := [Event.listObjects dest_bucket, Event.download src_bucket f]
                  val := Except.ok (notFoundMsg f src_bucket) }
            | some data =>
                if data.isEmpty then
                  { st := st
                    trace := [Event.listObjects dest_bucket, Event.download src_bucket f]
                    val := Except.ok (notFoundMsg f src_bucket) }
                else
                  match backendUpload st dest_bucket f data with
                  | Except.error e =>
                      { st := st
                        trace := [Event.listObjects dest_bucket, Event.download src_bucket f,
                                  Event.upload dest_bucket f]
                        val := Except.error e }
                  | Except.ok st1 =>
                      if move then
                        match backendRemove st1 src_bucket [f] with
                        | Except.error e =>
                            { st := st1
                              trace := [Event.listObjects dest_bucket, Event.download src_bucket f,
                                        Event.upload dest_bucket f, Event.removeObjs src_bucket [f]]
                              val := Except.error e }
                        | Except.ok st2 =>
                            let r := copy_or_move_loop st2 src_bucket rest dest_bucket move
                            { st := r.st
                              trace := Event.listObjects dest_bucket :: Event.download src_bucket f ::
                                       Event.upload dest_bucket f :: Event.removeObjs src_bucket [f] :: r.trace
                              val := r.val }
                      else
                        let r := copy_or_move_loop st1 src_bucket rest dest_bucket move
                        { st := r.st
                          trace := Event.listObjects dest_bucket :: Event.download src_bucket f ::
                                   Event.upload dest_bucket f :: r.trace
                          val := r.val }

/-- Embedding of `copy_or_move_files` (src/main.py lines 40-57).  A falsy
destination bucket name (empty string, also standing for the `None` that
`/file-action` passes when the form field is missing) returns the
destination-required message before any backend call. -/
def copy_or_move_files (st : Storage) (src_bucket : String) (files : List String)
    (dest_bucket : String) (move : Bool) : Res String :=
  if dest_bucket = "" then
    { st := st, trace := [], val := Except.ok "Destination bucket is required" }
  else
    copy_or_move_loop st src_bucket files dest_bucket move

/-- The newline character (code point 10). -/
def nlChar : Char := Char.ofNat 10

/-- The span that the character class of a Python `re.match(r'^[class]+$', s)`
must cover: `re.match` anchors at the start of the string, and the `$`
anchor matches at the end of the string or just before one newline at the
very end, so a single trailing newline is excluded from the span. -/
def dollarCore (cs : List Char) : List Char :=
  if cs.getLast? = some nlChar then cs.dropLast else cs

/-- Embedding of `valid_filename` (src/main.py lines 59-60):
`re.match(r'^[a-zA-Z0-9._-]+$', filename) is not None`, i.e. the string —
up to one trailing newline tolerated by `$` — is non-empty and consists of
ASCII letters, digits, dots, underscores and hyphens. -/
def valid_filename (filename : String) : Bool :=
  !(dollarCore filename.data).isEmpty &&
    (dollarCore filename.data).all
      (fun c => c.isAlpha || c.isDigit || c == '.' || c == '_' || c == '-')

/-- Embedding of `valid_bucket_name` (src/main.py lines 62-63):
`re.match(r'^[a-z0-9-]+$', name) is not None`, i.e. the string — up to one
trailing newline tolerated by `$` — is non-empty and consists of ASCII
lowercase letters, digits and hyphens. -/
def valid_bucket_name (name : String) : Bool :=
  !(dollarCore name.data).isEmpty &&
    (dollarCore name.data).all (fun c => c.isLower || c.isDigit || c == '-')

/-- A handler response: either the inline HTML confirmation page (which
embeds its argument as the value of the hidden `bucket_name` form field,
next to a hidden `force=true` field; the surrounding markup carries no other
data and is abstracted), or a 303 redirect to the given URL. -/
inductive Response where
  | confirmHtml (bucket_name : String)
  | redirect (url : String)
  deriving DecidableEq, Repr

/-- The redirect URL of line 200 of `src/main.py`. -/
def deleteSuccessUrl (bucket_name : String) : String :=
  "/?success=Bucket " ++ sQuote ++ bucket_name ++ sQuote ++ " deleted successfully"

/-- The redirect URL of line 202 of `src/main.py`. -/
def deleteErrorUrl (bucket_name : String) : String :=
  "/?error=Failed to delete bucket " ++ sQuote ++ bucket_name ++ sQuote

/-- Embedding of the `/delete-bucket` handler (src/main.py lines 109-202):
list the bucket (errors swallowed to `[]`); when the listing is non-empty and
`force` is not set, return the confirmation page; otherwise empty the bucket
first when the listing was non-empty (outside any try block), then try the
backend bucket deletion, turning success or failure into a redirect. -/
def delete_bucket (st : Storage) (bucket_name : String) (force : Bool) : Res Response :=
  let files := list_bucket_objects st bucket_name
  if !files.isEmpty && !force then
    { st := st, trace := [Event.listObjects bucket_name]
      val := Except.ok (Response.confirmHtml bucket_name) }
  else
    let r1 : Res Unit :=
      if !files.isEmpty then remove_all_in_bucket st bucket_name
      else { st := st, trace := [], val := Except.ok () }
    match r1.val with
    | Except.error e =>
        { st := r1.st, trace := Event.listObjects bucket_name :: r1.trace
          val := Except.error e }
    | Except.ok _ =>
        match backendDeleteBucket r1.st bucket_name with
        | Except.ok st2 =>
            { st := st2
              trace := Event.listObjects bucket_name :: r1.trace ++ [Event.deleteBucketCall bucket_name]
              val := Except.ok (Response.redirect (deleteSuccessUrl bucket_name)) }
        | Except.error _ =>
            { st := r1.st
              trace := Event.listObjects bucket_name :: r1.trace ++ [Event.deleteBucketCall bucket_name]
              val := Except.ok (Response.redirect (deleteErrorUrl bucket_name)) }

/-- Python's substring test `sub in s` for a non-empty `sub`: splitting on
the separator yields more than one piece exactly when it occurs. -/
def containsSub (s sub : String) : Bool :=
  (s.splitOn sub).length != 1

/-- Embedding of the `/file-action` handler (src/main.py lines 221-241).
The delete branch guards the backend remove with a try block; the copy/move
branch calls `copy_or_move_files` with no try block at all, so an exception
from it propagates out of the handler; its returned message is classified by
substring tests into an error or success redirect. -/
def file_action (st : Storage) (src_bucket filename action dest_bucket : String) :
    Res Response :=
  if action = "delete" then
    match backendRemove st src_bucket [filename] with
    | Except.ok st1 =>
        { st := st1, trace := [Event.removeObjs src_bucket [filename]]
          val := Except.ok (Response.redirect
            ("/bucket/" ++ src_bucket ++ "?success=File " ++ sQuote ++ filename ++ sQuote ++ " deleted successfully")) }
    | Except.error _ =>
        { st := st, trace := [Event.removeObjs src_bucket [filename]]
          val := Except.ok (Response.redirect
            ("/bucket/" ++ src_bucket ++ "?error=Failed to delete file " ++ sQuote ++ filename ++ sQuote)) }
  else if action = "copy" ∨ action = "move" then
    let r := copy_or_move_files st src_bucket [filename] dest_bucket (action == "move")
    match r.val with
    | Except.error e => { st := r.st, trace := r.trace, val := Except.error e }
    | Except.ok msg =>
        if containsSub msg "already exists" || containsSub msg "required" || containsSub msg "not found" then
          { st := r.st, trace := r.trace
            val := Except.ok (Response.redirect ("/bucket/" ++ src_bucket ++ "?error=" ++ msg)) }
        else
          { st := r.st, trace := r.trace
            val := Except.ok (Response.redirect ("/bucket/" ++ src_bucket ++ "?success=" ++ msg)) }
  else
    { st := st, trace := []
      val := Except.ok (Response.redirect ("/bucket/" ++ src_bucket ++ "?error=Invalid action")) }

/-! ## Helper lemmas about the storage model -/

theorem findBucket_setBucket_self (st : Storage) (b : String) (fs g : BucketFiles)
    (h : findBucket st b = some g) : findBucket (setBucket st b fs) b = some fs := by
  induction st with
  | nil => simp [findBucket] at h
  | cons p rest ih =>
    obtain ⟨n, files⟩ := p
    by_cases hn : n = b
    · simp [findBucket, setBucket, hn]
    · simp [findBucket, setBucket, hn] at h ⊢
      exact ih h

theorem findBucket_setBucket_ne (st : Storage) (b b' : String) (fs : BucketFiles)
    (h : b' ≠ b) : findBucket (setBucket st b fs) b' = findBucket st b' := by
  induction st with
  | nil => simp [setBucket]
  | cons p rest ih =>
    obtain ⟨n, files⟩ := p
    by_cases hn : n = b
    · subst hn
      simp [findBucket, setBucket, Ne.symm h]
    · by_cases hn' : n = b'
      · subst hn'
        simp [findBucket, setBucket, hn]
      · simp [findBucket, setBucket, hn, hn', ih]

theorem eraseBucket_setBucket (st : Storage) (b : String) (fs : BucketFiles) :
    eraseBucket (setBucket st b fs) b = eraseBucket st b := by
  induction st with
  | nil => simp [setBucket, eraseBucket]
  | cons p rest ih =>
    obtain ⟨n, files⟩ := p
    by_cases hn : n = b
    · simp [setBucket, eraseBucket, hn]
    · simp [setBucket, eraseBucket, hn, ih]

theorem find?_name_eq_none (l : BucketFiles) (f : String)
    (h : f ∉ l.map Prod.fst) : l.find? (fun p => p.1 == f) = none := by
  induction l with
  | nil => rfl
  | cons p rest ih =>
    simp only [List.map_cons, List.mem_cons, not_or] at h
    have hpf : (p.1 == f) = false := by
      simp only [beq_eq_false_iff_ne, ne_eq]
      exact fun he => h.1 he.symm
    simp [List.find?_cons, hpf, ih h.2]

theorem find?_filter_removed (l : BucketFiles) (f : String) :
    (l.filter (fun p => !([f].contains p.1))).find? (fun p => p.1 == f) = none := by
  induction l with
  | nil => rfl
  | cons p rest ih =>
    by_cases hpf : p.1 = f
    · simp [List.filter_cons, hpf, ih]
    · simp [List.filter_cons, hpf, List.find?_cons, ih]

theorem filter_not_contains_nil (l : BucketFiles) (m : List String)
    (h : ∀ p ∈ l, p.1 ∈ m) : l.filter (fun p => !(m.contains p.1)) = [] := by
  induction l with
  | nil => rfl
  | cons p rest ih =>
    have h1 : m.contains p.1 = true := by simpa using h p (by simp)
    simp only [List.filter_cons, h1, Bool.not_true, Bool.false_eq_true, if_false]
    exact ih (fun q hq => h q (by simp [hq]))

theorem backendDownload_eq (st : Storage) (b f : String) (fs : BucketFiles)
    (h : findBucket st b = some fs) :
    backendDownload st b f = (fs.find? (fun p => p.1 == f)).map Prod.snd := by
  simp [backendDownload, h]

theorem find?_append_none {α : Type} (p : α → Bool) (l1 l2 : List α)
    (h : l1.find? p = none) : (l1 ++ l2).find? p = l2.find? p := by
  induction l1 with
  | nil => rfl
  | cons a rest ih =>
    rw [List.find?_cons] at h
    cases hp : p a with
    | true => rw [hp] at h; simp at h
    | false =>
      rw [hp] at h
      simp only [List.cons_append, List.find?_cons, hp]
      exact ih h

theorem not_pair_mem_of_not_mem_fst {dfs : BucketFiles} {f : String}
    (hno : f ∉ dfs.map Prod.fst) : ∀ x : Bytes, (f, x) ∉ dfs :=
  fun x hx => hno (List.mem_map.mpr ⟨(f, x), hx, rfl⟩)

/-! ## C1: moving an existing file to a non-colliding destination -/

/-- C1, counterexample to the claim as stated: in a state where the file
exists in the source bucket (with empty byte content) and is absent from the
existing destination bucket, `copy_or_move_files` with `move = true` does
not return the moved message and leaves the state unchanged: the Python
falsy test `if not data` treats the empty download like an absent object and
returns the source-not-found message instead. -/
theorem c1_counterexample :
    findBucket [("srcc", [("em.txt", [])]), ("dstc", [])] "srcc"
      = some [("em.txt", [])]
    ∧ findBucket [("srcc", [("em.txt", [])]), ("dstc", [])] "dstc" = some []
    ∧ (copy_or_move_files [("srcc", [("em.txt", [])]), ("dstc", [])]
        "srcc" ["em.txt"] "dstc" true).val ≠ Except.ok "Files moved successfully"
    ∧ (copy_or_move_files [("srcc", [("em.txt", [])]), ("dstc", [])]
        "srcc" ["em.txt"] "dstc" true).val = Except.ok (notFoundMsg "em.txt" "srcc")
    ∧ (copy_or_move_files [("srcc", [("em.txt", [])]), ("dstc", [])]
        "srcc" ["em.txt"] "dstc" true).st
      = [("srcc", [("em.txt", [])]), ("dstc", [])] := by
  decide

/-- C1, amended: whenever file `f` exists in the source bucket with
non-empty content `bs` and does not already exist in the (existing)
destination bucket, `copy_or_move_files src [f] dest move=true` returns the
moved success message and ends in a state where `f` with its original bytes
is present in the destination bucket and absent from the source bucket. -/
theorem c1_move_success (st : Storage) (src_bucket dest_bucket f : String)
    (bs : Bytes) (dfs : BucketFiles)
    (hdest : dest_bucket ≠ "")
    (hdfs : findBucket st dest_bucket = some dfs)
    (hno : f ∉ dfs.map Prod.fst)
    (hdl : backendDownload st src_bucket f = some bs)
    (hbs : bs ≠ []) :
    (copy_or_move_files st src_bucket [f] dest_bucket true).val =
        Except.ok "Files moved successfully"
    ∧ backendDownload (copy_or_move_files st src_bucket [f] dest_bucket true).st
        dest_bucket f = some bs
    ∧ backendDownload (copy_or_move_files st src_bucket [f] dest_bucket true).st
        src_bucket f = none := by
  obtain ⟨sfs, hsfs, hfind⟩ : ∃ sfs, findBucket st src_bucket = some sfs ∧
      (sfs.find? (fun p => p.1 == f)).map Prod.snd = some bs := by
    unfold backendDownload at hdl
    cases hfb : findBucket st src_bucket with
    | none => rw [hfb] at hdl; simp at hdl
    | some sfs => rw [hfb] at hdl; exact ⟨sfs, rfl, hdl⟩
  obtain ⟨q, hq, hq2⟩ : ∃ q, sfs.find? (fun p => p.1 == f) = some q ∧ q.2 = bs := by
    cases hfq : sfs.find? (fun p => p.1 == f) with
    | none => rw [hfq] at hfind; simp at hfind
    | some q => rw [hfq] at hfind; simp at hfind; exact ⟨q, rfl, hfind⟩
  have hq1 : q.1 = f := by
    have := List.find?_some hq
    simpa [beq_iff_eq] using this
  have hqmem : q ∈ sfs := List.mem_of_find?_eq_some hq
  have hne : src_bucket ≠ dest_bucket := by
    intro he
    rw [he, hdfs] at hsfs
    obtain rfl : dfs = sfs := by injection hsfs
    exact hno (List.mem_map.mpr ⟨q, hqmem, hq1⟩)
  have hc : (dfs.map Prod.fst).contains f = false := by simpa using hno
  have hbe : bs.isEmpty = false := by simpa using hbs
  have hres : copy_or_move_files st src_bucket [f] dest_bucket true =
      { st := setBucket (setBucket st dest_bucket (dfs ++ [(f, bs)])) src_bucket
                (sfs.filter (fun p => !([f].contains p.1)))
        trace := [Event.listObjects dest_bucket, Event.download src_bucket f,
                  Event.upload dest_bucket f, Event.removeObjs src_bucket [f]]
        val := Except.ok "Files moved successfully" } := by
    have hup : findBucket (setBucket st dest_bucket (dfs ++ [(f, bs)])) src_bucket =
        some sfs := by
      rw [findBucket_setBucket_ne st dest_bucket src_bucket _ hne, hsfs]
    simp [copy_or_move_files, hdest, copy_or_move_loop, backendList, hdfs, hc, hdl, hbe,
      backendUpload, backendRemove, hup]
    intro x hx
    exact hno (List.mem_map.mpr ⟨(f, x), hx, rfl⟩)
  refine ⟨by rw [hres], ?_, ?_⟩
  · rw [hres]
    rw [backendDownload_eq _ _ f _ (by
      rw [findBucket_setBucket_ne _ src_bucket dest_bucket _ (Ne.symm hne)]
      exact findBucket_setBucket_self st dest_bucket _ dfs hdfs)]
    rw [find?_append_none _ dfs _ (find?_name_eq_none dfs f hno)]
    simp [List.find?_cons]
  · rw [hres]
    rw [backendDownload_eq _ _ f _ (findBucket_setBucket_self _ src_bucket _ sfs (by
      rw [findBucket_setBucket_ne st dest_bucket src_bucket _ hne]
      exact hsfs))]
    rw [find?_filter_removed]
    rfl

/-- C1, witness: the amended theorem applied to a concrete state. -/
theorem c1_move_success_witness :
    (copy_or_move_files [("srcb", [("a.txt", [1, 2])]), ("dstb", [])]
        "srcb" ["a.txt"] "dstb" true).val = Except.ok "Files moved successfully"
    ∧ backendDownload (copy_or_move_files [("srcb", [("a.txt", [1, 2])]), ("dstb", [])]
        "srcb" ["a.txt"] "dstb" true).st "dstb" "a.txt" = some [1, 2]
    ∧ backendDownload (copy_or_move_files [("srcb", [("a.txt", [1, 2])]), ("dstb", [])]
        "srcb" ["a.txt"] "dstb" true).st "srcb" "a.txt" = none :=
  c1_move_success [("srcb", [("a.txt", [1, 2])]), ("dstb", [])] "srcb" "dstb" "a.txt"
    [1, 2] [] (by decide) rfl (by decide) rfl (by decide)

/-! ## C2: destination collision halts the operation -/

/-- C2: when the next file `f` to be processed (from any state, in
particular any state reached after earlier files were copied or moved)
already exists in the destination bucket, `copy_or_move_files` stops at the
destination listing and returns the collision message naming `f`: the state
is unchanged (so `f` is not removed from the source even when `move` is
true) and the trace holds no download, upload or remove call for `f` or for
any later file. -/
theorem c2_collision_halts (st : Storage) (src_bucket dest_bucket f : String)
    (rest : List String) (move : Bool) (dfs : BucketFiles)
    (hdest : dest_bucket ≠ "")
    (hdfs : findBucket st dest_bucket = some dfs)
    (hf : f ∈ dfs.map Prod.fst) :
    copy_or_move_files st src_bucket (f :: rest) dest_bucket move =
      { st := st, trace := [Event.listObjects dest_bucket]
        val := Except.ok (collisionMsg f dest_bucket) } := by
  have hc : (dfs.map Prod.fst).contains f = true := by simpa using hf
  simp [copy_or_move_files, hdest, copy_or_move_loop, backendList, hdfs, hc]
  intro h'
  obtain ⟨p, hp, hp1⟩ := List.mem_map.mp hf
  exact absurd hp (by rw [show p = (f, p.2) from Prod.ext hp1 rfl] at hp ⊢; exact h' p.2)

/-- C2, witness: the theorem applied to a concrete colliding state. -/
theorem c2_collision_halts_witness :
    copy_or_move_files [("dstb", [("f.txt", [7])])] "srcb" ["f.txt"] "dstb" true =
      { st := [("dstb", [("f.txt", [7])])], trace := [Event.listObjects "dstb"]
        val := Except.ok (collisionMsg "f.txt" "dstb") } :=
  c2_collision_halts [("dstb", [("f.txt", [7])])] "srcb" "dstb" "f.txt" [] true
    [("f.txt", [7])] (by decide) rfl (by decide)

/-! ## C3: the source-not-found test -/

/-- C3, counterexample to the claim as stated: a file that exists in the
source bucket with empty content is reported as not found, and no upload is
performed, although the claim says any existing file (including one with
empty content) proceeds to upload. -/
theorem c3_counterexample :
    findBucket [("srcx", [("e.txt", [])]), ("dstx", [("z", [5])])] "srcx"
      = some [("e.txt", [])]
    ∧ findBucket [("srcx", [("e.txt", [])]), ("dstx", [("z", [5])])] "dstx"
      = some [("z", [5])]
    ∧ (copy_or_move_files [("srcx", [("e.txt", [])]), ("dstx", [("z", [5])])]
        "srcx" ["e.txt"] "dstx" false).val = Except.ok (notFoundMsg "e.txt" "srcx")
    ∧ Event.upload "dstx" "e.txt" ∉
        (copy_or_move_files [("srcx", [("e.txt", [])]), ("dstx", [("z", [5])])]
          "srcx" ["e.txt"] "dstx" false).trace := by
  decide

/-- C3, amended: with an existing, non-colliding destination,
`copy_or_move_files` stops at file `f` with the source-not-found message
(leaving the state unchanged, having made only the destination listing and
the download call) exactly when the download of `f` is falsy — the object is
absent or its content is empty; whenever `f` exists with non-empty content
the operation goes on to upload `f` to the destination. -/
theorem c3_amended (st : Storage) (src_bucket dest_bucket f : String)
    (rest : List String) (move : Bool) (dfs : BucketFiles)
    (hdest : dest_bucket ≠ "")
    (hdfs : findBucket st dest_bucket = some dfs)
    (hno : f ∉ dfs.map Prod.fst) :
    (copy_or_move_files st src_bucket (f :: rest) dest_bucket move =
        { st := st
          trace := [Event.listObjects dest_bucket, Event.download src_bucket f]
          val := Except.ok (notFoundMsg f src_bucket) }
      ↔ (backendDownload st src_bucket f = none ∨ backendDownload st src_bucket f = some []))
    ∧ (∀ bs, backendDownload st src_bucket f = some bs → bs ≠ [] →
        Event.upload dest_bucket f ∈
          (copy_or_move_files st src_bucket (f :: rest) dest_bucket move).trace) := by
  have hc : (dfs.map Prod.fst).contains f = false := by simpa using hno
  have hred : copy_or_move_files st src_bucket (f :: rest) dest_bucket move =
      copy_or_move_loop st src_bucket (f :: rest) dest_bucket move := by
    simp [copy_or_move_files, hdest]
  rw [hred]
  cases hdl : backendDownload st src_bucket f with
  | none =>
      have hres : copy_or_move_loop st src_bucket (f :: rest) dest_bucket move =
          { st := st
            trace := [Event.listObjects dest_bucket, Event.download src_bucket f]
            val := Except.ok (notFoundMsg f src_bucket) } := by
        simp [copy_or_move_loop, backendList, hdfs, hc, hdl,
          not_pair_mem_of_not_mem_fst hno]
      exact ⟨by simp [hres], by simp⟩
  | some data =>
      by_cases hde : data = []
      · subst hde
        have hres : copy_or_move_loop st src_bucket (f :: rest) dest_bucket move =
            { st := st
              trace := [Event.listObjects dest_bucket, Event.download src_bucket f]
              val := Except.ok (notFoundMsg f src_bucket) } := by
          simp [copy_or_move_loop, backendList, hdfs, hc, hdl,
            not_pair_mem_of_not_mem_fst hno]
        refine ⟨by simp [hres], ?_⟩
        intro bs hbs hbsne
        injection hbs with hb
        exact absurd hb.symm hbsne
      · have hbe : data.isEmpty = false := by simpa using hde
        have hup : backendUpload st dest_bucket f data =
            Except.ok (setBucket st dest_bucket (dfs ++ [(f, data)])) := by
          simp [backendUpload, hdfs]
        have htr : ∃ t, (copy_or_move_loop st src_bucket (f :: rest) dest_bucket move).trace =
            Event.listObjects dest_bucket :: Event.download src_bucket f ::
              Event.upload dest_bucket f :: t := by
          cases move with
          | true =>
              cases hrm : backendRemove (setBucket st dest_bucket (dfs ++ [(f, data)]))
                  src_bucket [f] with
              | ok st2 =>
                  have heq : copy_or_move_loop st src_bucket (f :: rest) dest_bucket true =
                      { st := (copy_or_move_loop st2 src_bucket rest dest_bucket true).st
                        trace := Event.listObjects dest_bucket :: Event.download src_bucket f ::
                          Event.upload dest_bucket f :: Event.removeObjs src_bucket [f] ::
                          (copy_or_move_loop st2 src_bucket rest dest_bucket true).trace
                        val := (copy_or_move_loop st2 src_bucket rest dest_bucket true).val } := by
                    simp [copy_or_move_loop, backendList, hdfs, hc, hdl, hbe, hup, hrm,
                      not_pair_mem_of_not_mem_fst hno]
                  exact ⟨_, by rw [heq]⟩
              | error e =>
                  have heq : copy_or_move_loop st src_bucket (f :: rest) dest_bucket true =
                      { st := setBucket st dest_bucket (dfs ++ [(f, data)])
                        trace := [Event.listObjects dest_bucket, Event.download src_bucket f,
                          Event.upload dest_bucket f, Event.removeObjs src_bucket [f]]
                        val := Except.error e } := by
                    simp [copy_or_move_loop, backendList, hdfs, hc, hdl, hbe, hup, hrm,
                      not_pair_mem_of_not_mem_fst hno]
                  exact ⟨_, by rw [heq]⟩
          | false =>
              have heq : copy_or_move_loop st src_bucket (f :: rest) dest_bucket false =
                  { st := (copy_or_move_loop (setBucket st dest_bucket (dfs ++ [(f, data)]))
                      src_bucket rest dest_bucket false).st
                    trace := Event.listObjects dest_bucket :: Event.download src_bucket f ::
                      Event.upload dest_bucket f ::
                      (copy_or_move_loop (setBucket st dest_bucket (dfs ++ [(f, data)]))
                        src_bucket rest dest_bucket false).trace
                    val := (copy_or_move_loop (setBucket st dest_bucket (dfs ++ [(f, data)]))
                      src_bucket rest dest_bucket false).val } := by
                simp [copy_or_move_loop, backendList, hdfs, hc, hdl, hbe, hup,
                  not_pair_mem_of_not_mem_fst hno]
              exact ⟨_, by rw [heq]⟩
        obtain ⟨t, ht⟩ := htr
        constructor
        · constructor
          · intro h
            have := congrArg Res.trace h
            rw [ht] at this
            simp at this
          · intro h
            rcases h with h | h
            · exact absurd h (by simp)
            · injection h with hb
              exact absurd hb hde
        · intro bs hbs hbsne
          rw [ht]
          simp

/-- C3, witness: the iff of the amended theorem at a concrete state whose
source object is present with non-empty content. -/
theorem c3_amended_witness :
    copy_or_move_files [("srcw", [("g.txt", [4])]), ("dstw", [("z", [5])])]
        "srcw" ["g.txt"] "dstw" false =
      { st := [("srcw", [("g.txt", [4])]), ("dstw", [("z", [5])])]
        trace := [Event.listObjects "dstw", Event.download "srcw" "g.txt"]
        val := Except.ok (notFoundMsg "g.txt" "srcw") }
    ↔ (backendDownload [("srcw", [("g.txt", [4])]), ("dstw", [("z", [5])])] "srcw" "g.txt" = none
        ∨ backendDownload [("srcw", [("g.txt", [4])]), ("dstw", [("z", [5])])] "srcw" "g.txt"
          = some []) :=
  (c3_amended [("srcw", [("g.txt", [4])]), ("dstw", [("z", [5])])] "srcw" "dstw" "g.txt"
    [] false [("z", [5])] (by decide) rfl (by decide)).1

/-! ## C4: the destination bucket name is required -/

/-- C4: for every state, source bucket, file list (including the empty one)
and move flag, `copy_or_move_files` with an empty destination bucket name
returns the destination-required message, leaves the state unchanged and
performs no backend call at all (empty trace). -/
theorem c4_dest_required (st : Storage) (src_bucket : String) (files : List String)
    (move : Bool) :
    copy_or_move_files st src_bucket files "" move =
      { st := st, trace := [], val := Except.ok "Destination bucket is required" } := by
  rfl

/-! ## C5: deleting a non-empty bucket -/

/-- C5: for every bucket whose listing is non-empty, the delete-bucket
handler without force leaves the state unchanged after the single listing
call (no remove and no delete-bucket call reaches the backend) and returns
the confirmation page carrying the bucket name in its hidden form field;
the same call with force set lists, removes all listed files in one batch,
and then deletes the bucket, ending with the success redirect. -/
theorem c5_delete_bucket (st : Storage) (b : String)
    (h : list_bucket_objects st b ≠ []) :
    delete_bucket st b false =
      { st := st, trace := [Event.listObjects b]
        val := Except.ok (Response.confirmHtml b) }
    ∧ delete_bucket st b true =
      { st := eraseBucket st b
        trace := [Event.listObjects b, Event.listObjects b,
                  Event.removeObjs b (list_bucket_objects st b), Event.deleteBucketCall b]
        val := Except.ok (Response.redirect (deleteSuccessUrl b)) } := by
  obtain ⟨fs, hfb⟩ : ∃ fs, findBucket st b = some fs := by
    cases hfb : findBucket st b with
    | none => exact absurd (by simp [list_bucket_objects, backendList, hfb]) h
    | some fs => exact ⟨fs, rfl⟩
  have hl : list_bucket_objects st b = fs.map Prod.fst := by
    simp [list_bucket_objects, backendList, hfb]
  have hmne : (fs.map Prod.fst).isEmpty = false := by
    rw [hl] at h
    simpa using h
  have hfilter : fs.filter (fun p => !((fs.map Prod.fst).contains p.1)) = [] :=
    filter_not_contains_nil fs _ (fun p hp => List.mem_map.mpr ⟨p, hp, rfl⟩)
  have hfilter2 : fs.filter (fun p => !(decide (p.1 ∈ fs.map Prod.fst))) = [] := by
    simpa using hfilter
  have hra : remove_all_in_bucket st b =
      { st := setBucket st b []
        trace := [Event.listObjects b, Event.removeObjs b (fs.map Prod.fst)]
        val := Except.ok () } := by
    simp [remove_all_in_bucket, hl, hmne, backendRemove, hfb, hfilter2]
  have hfind : findBucket (setBucket st b []) b = some [] :=
    findBucket_setBucket_self st b [] fs hfb
  have hdel : backendDeleteBucket (setBucket st b []) b = Except.ok (eraseBucket st b) := by
    simp [backendDeleteBucket, hfind, eraseBucket_setBucket]
  constructor
  · simp [delete_bucket, hl, hmne]
  · rw [hl]
    simp [delete_bucket, hl, hmne, hra, hdel]

/-- C5, witness: the theorem applied to a concrete non-empty bucket. -/
theorem c5_delete_bucket_witness :
    delete_bucket [("bkt", [("x", [9])])] "bkt" false =
      { st := [("bkt", [("x", [9])])], trace := [Event.listObjects "bkt"]
        val := Except.ok (Response.confirmHtml "bkt") }
    ∧ delete_bucket [("bkt", [("x", [9])])] "bkt" true =
      { st := eraseBucket [("bkt", [("x", [9])])] "bkt"
        trace := [Event.listObjects "bkt", Event.listObjects "bkt",
                  Event.removeObjs "bkt" (list_bucket_objects [("bkt", [("x", [9])])] "bkt"),
                  Event.deleteBucketCall "bkt"]
        val := Except.ok (Response.redirect (deleteSuccessUrl "bkt")) } :=
  c5_delete_bucket [("bkt", [("x", [9])])] "bkt" (by decide)

/-! ## C6 and C7: the validators -/

theorem dollarCore_spec (cls : Char → Bool) (cs : List Char)
    (hnl : cls nlChar = false) :
    (!(dollarCore cs).isEmpty && (dollarCore cs).all cls) = true ↔
      ∃ body : List Char, (cs = body ∨ cs = body ++ [nlChar]) ∧ body ≠ [] ∧
        ∀ c ∈ body, cls c = true := by
  have hbool : ∀ m : List Char, (!m.isEmpty && m.all cls) = true ↔
      (m ≠ [] ∧ ∀ c ∈ m, cls c = true) := by
    intro m
    simp [List.all_eq_true, List.isEmpty_iff]
  rcases List.eq_nil_or_concat cs with h | ⟨l, a, h⟩
  · subst h
    simp [dollarCore]
  · have h2 : cs = l ++ [a] := by simpa using h
    subst h2
    by_cases ha : a = nlChar
    · subst ha
      have hcore : dollarCore (l ++ [nlChar]) = l := by
        simp [dollarCore, List.getLast?_concat, List.dropLast_concat]
      rw [hcore, hbool]
      constructor
      · rintro ⟨hne, hcl⟩
        exact ⟨l, Or.inr rfl, hne, hcl⟩
      · rintro ⟨body, hb | hb, hne, hcl⟩
        · exfalso
          have hmem : nlChar ∈ body := by
            rw [← hb]
            simp
          have := hcl nlChar hmem
          rw [hnl] at this
          cases this
        · have hlb : l = body := by
            have := congrArg List.dropLast hb
            simpa [List.dropLast_concat] using this
          subst hlb
          exact ⟨hne, hcl⟩
    · have hcore : dollarCore (l ++ [a]) = l ++ [a] := by
        simp [dollarCore, List.getLast?_concat, ha]
      rw [hcore, hbool]
      constructor
      · rintro ⟨hne, hcl⟩
        exact ⟨l ++ [a], Or.inl rfl, hne, hcl⟩
      · rintro ⟨body, hb | hb, hne, hcl⟩
        · rw [hb]
          refine ⟨by simp [← hb], fun c hc => hcl c hc⟩
        · exfalso
          have := congrArg List.getLast? hb
          simp only [List.getLast?_concat] at this
          injection this with hanl
          exact ha hanl

/-- C6, counterexample to the claim as stated, in both directions: the
empty string vacuously contains only class characters yet is rejected (the
pattern requires at least one character), and a string with one trailing
newline — a character outside the class — is accepted, because the `$`
anchor of the Python pattern matches just before a final newline. -/
theorem c6_counterexample :
    valid_bucket_name "" = false ∧ valid_bucket_name "abc\n" = true := by
  decide

/-- C6, amended: `valid_bucket_name s` is true exactly when `s` consists of
one or more characters of the class [a-z0-9-] optionally followed by a
single trailing newline; in particular the empty string and a lone newline
are rejected, and any other character outside the class is rejected. -/
theorem c6_amended (s : String) :
    valid_bucket_name s = true ↔
      ∃ body : List Char, (s.data = body ∨ s.data = body ++ [nlChar]) ∧ body ≠ [] ∧
        ∀ c ∈ body, ('a' ≤ c ∧ c ≤ 'z') ∨ ('0' ≤ c ∧ c ≤ '9') ∨ c = '-' := by
  have hbc : ∀ c : Char, (c.isLower || c.isDigit || c == '-') = true ↔
      (('a' ≤ c ∧ c ≤ 'z') ∨ ('0' ≤ c ∧ c ≤ '9') ∨ c = '-') := by
    intro c
    simp [Char.isLower, Char.isDigit, Bool.or_eq_true, Bool.and_eq_true,
      decide_eq_true_iff, beq_iff_eq, Char.le_def, ge_iff_le, or_assoc]
  rw [valid_bucket_name, dollarCore_spec _ _ (by decide)]
  constructor
  · rintro ⟨body, hb, hne, hcl⟩
    exact ⟨body, hb, hne, fun c hc => (hbc c).mp (hcl c hc)⟩
  · rintro ⟨body, hb, hne, hcl⟩
    exact ⟨body, hb, hne, fun c hc => (hbc c).mpr (hcl c hc)⟩

/-- C7, counterexample to the claim as stated: the string of an `a`
followed by a newline is accepted by `valid_filename` although the newline
is not in the class [a-zA-Z0-9._-], because the `$` anchor of the Python
pattern matches just before a single final newline. -/
theorem c7_counterexample :
    valid_filename "a\n" = true
    ∧ nlChar ∈ ("a\n").data
    ∧ ¬(('a' ≤ nlChar ∧ nlChar ≤ 'z') ∨ ('A' ≤ nlChar ∧ nlChar ≤ 'Z') ∨
        ('0' ≤ nlChar ∧ nlChar ≤ '9') ∨ nlChar = '.' ∨ nlChar = '_' ∨ nlChar = '-') := by
  decide

/-- C7, amended: `valid_filename s` is true exactly when `s` consists of one
or more characters of the class [a-zA-Z0-9._-] optionally followed by a
single trailing newline; in particular the empty string is rejected. -/
theorem c7_amended :
    (∀ s : String, valid_filename s = true ↔
      ∃ body : List Char, (s.data = body ∨ s.data = body ++ [nlChar]) ∧ body ≠ [] ∧
        ∀ c ∈ body,
          ('a' ≤ c ∧ c ≤ 'z') ∨ ('A' ≤ c ∧ c ≤ 'Z') ∨ ('0' ≤ c ∧ c ≤ '9') ∨
            c = '.' ∨ c = '_' ∨ c = '-')
    ∧ valid_filename "" = false := by
  have hch : ∀ c : Char,
      (c.isAlpha || c.isDigit || c == '.' || c == '_' || c == '-') = true ↔
      (('a' ≤ c ∧ c ≤ 'z') ∨ ('A' ≤ c ∧ c ≤ 'Z') ∨ ('0' ≤ c ∧ c ≤ '9') ∨
        c = '.' ∨ c = '_' ∨ c = '-') := by
    intro c
    simp [Char.isAlpha, Char.isUpper, Char.isLower, Char.isDigit, Bool.or_eq_true,
      Bool.and_eq_true, decide_eq_true_iff, beq_iff_eq, Char.le_def, ge_iff_le, or_assoc]
    tauto
  constructor
  · intro s
    rw [valid_filename, dollarCore_spec _ _ (by decide)]
    constructor
    · rintro ⟨body, hb, hne, hcl⟩
      exact ⟨body, hb, hne, fun c hc => (hch c).mp (hcl c hc)⟩
    · rintro ⟨body, hb, hne, hcl⟩
      exact ⟨body, hb, hne, fun c hc => (hch c).mpr (hcl c hc)⟩
  · decide

/-! ## C8: copying an existing file to a non-colliding destination -/

/-- C8, counterexample to the claim as stated: a file existing in the source
bucket with empty content, copied (`move = false`) to an existing
destination without collision, yields the source-not-found message rather
than the copied message, and nothing is uploaded to the destination. -/
theorem c8_counterexample :
    findBucket [("srcy", [("w.txt", [])]), ("dsty", [])] "srcy" = some [("w.txt", [])]
    ∧ findBucket [("srcy", [("w.txt", [])]), ("dsty", [])] "dsty" = some []
    ∧ (copy_or_move_files [("srcy", [("w.txt", [])]), ("dsty", [])]
        "srcy" ["w.txt"] "dsty" false).val ≠ Except.ok "Files copied successfully"
    ∧ (copy_or_move_files [("srcy", [("w.txt", [])]), ("dsty", [])]
        "srcy" ["w.txt"] "dsty" false).val = Except.ok (notFoundMsg "w.txt" "srcy")
    ∧ backendDownload (copy_or_move_files [("srcy", [("w.txt", [])]), ("dsty", [])]
        "srcy" ["w.txt"] "dsty" false).st "dsty" "w.txt" = none := by
  decide

/-- C8, amended: whenever file `f` exists in the source bucket with
non-empty content `bs` and does not collide in the (existing) destination
bucket, `copy_or_move_files src [f] dest move=false` returns the copied
success message and ends in a state where the source bucket is unchanged
(so `f` is still present in it with its bytes) and `f` with its original
bytes is also present in the destination bucket. -/
theorem c8_copy_success (st : Storage) (src_bucket dest_bucket f : String)
    (bs : Bytes) (dfs : BucketFiles)
    (hdest : dest_bucket ≠ "")
    (hdfs : findBucket st dest_bucket = some dfs)
    (hno : f ∉ dfs.map Prod.fst)
    (hdl : backendDownload st src_bucket f = some bs)
    (hbs : bs ≠ []) :
    (copy_or_move_files st src_bucket [f] dest_bucket false).val =
        Except.ok "Files copied successfully"
    ∧ findBucket (copy_or_move_files st src_bucket [f] dest_bucket false).st src_bucket
        = findBucket st src_bucket
    ∧ backendDownload (copy_or_move_files st src_bucket [f] dest_bucket false).st
        src_bucket f = some bs
    ∧ backendDownload (copy_or_move_files st src_bucket [f] dest_bucket false).st
        dest_bucket f = some bs := by
  obtain ⟨sfs, hsfs, hfind⟩ : ∃ sfs, findBucket st src_bucket = some sfs ∧
      (sfs.find? (fun p => p.1 == f)).map Prod.snd = some bs := by
    unfold backendDownload at hdl
    cases hfb : findBucket st src_bucket with
    | none => rw [hfb] at hdl; simp at hdl
    | some sfs => rw [hfb] at hdl; exact ⟨sfs, rfl, hdl⟩
  obtain ⟨q, hq, hq2⟩ : ∃ q, sfs.find? (fun p => p.1 == f) = some q ∧ q.2 = bs := by
    cases hfq : sfs.find? (fun p => p.1 == f) with
    | none => rw [hfq] at hfind; simp at hfind
    | some q => rw [hfq] at hfind; simp at hfind; exact ⟨q, rfl, hfind⟩
  have hq1 : q.1 = f := by
    have := List.find?_some hq
    simpa [beq_iff_eq] using this
  have hqmem : q ∈ sfs := List.mem_of_find?_eq_some hq
  have hne : src_bucket ≠ dest_bucket := by
    intro he
    rw [he, hdfs] at hsfs
    obtain rfl : dfs = sfs := by injection hsfs
    exact hno (List.mem_map.mpr ⟨q, hqmem, hq1⟩)
  have hc : (dfs.map Prod.fst).contains f = false := by simpa using hno
  have hbe : bs.isEmpty = false := by simpa using hbs
  have hres : copy_or_move_files st src_bucket [f] dest_bucket false =
      { st := setBucket st dest_bucket (dfs ++ [(f, bs)])
        trace := [Event.listObjects dest_bucket, Event.download src_bucket f,
                  Event.upload dest_bucket f]
        val := Except.ok "Files copied successfully" } := by
    simp [copy_or_move_files, hdest, copy_or_move_loop, backendList, hdfs, hc, hdl, hbe,
      backendUpload, not_pair_mem_of_not_mem_fst hno]
  have hsrc : findBucket (setBucket st dest_bucket (dfs ++ [(f, bs)])) src_bucket =
      findBucket st src_bucket :=
    findBucket_setBucket_ne st dest_bucket src_bucket _ hne
  refine ⟨by rw [hres], by rw [hres]; exact hsrc, ?_, ?_⟩
  · rw [hres]
    show backendDownload (setBucket st dest_bucket (dfs ++ [(f, bs)])) src_bucket f = some bs
    rw [backendDownload_eq _ _ f sfs (by rw [hsrc]; exact hsfs), hq]
    simp [hq2]
  · rw [hres]
    show backendDownload (setBucket st dest_bucket (dfs ++ [(f, bs)])) dest_bucket f = some bs
    rw [backendDownload_eq _ _ f _ (findBucket_setBucket_self st dest_bucket _ dfs hdfs)]
    rw [find?_append_none _ dfs _ (find?_name_eq_none dfs f hno)]
    simp [List.find?_cons]

/-- C8, witness: the amended theorem applied to a concrete state. -/
theorem c8_copy_success_witness :
    (copy_or_move_files [("srcz", [("c.txt", [3])]), ("dstz", [])]
        "srcz" ["c.txt"] "dstz" false).val = Except.ok "Files copied successfully"
    ∧ findBucket (copy_or_move_files [("srcz", [("c.txt", [3])]), ("dstz", [])]
        "srcz" ["c.txt"] "dstz" false).st "srcz"
      = findBucket [("srcz", [("c.txt", [3])]), ("dstz", [])] "srcz"
    ∧ backendDownload (copy_or_move_files [("srcz", [("c.txt", [3])]), ("dstz", [])]
        "srcz" ["c.txt"] "dstz" false).st "srcz" "c.txt" = some [3]
    ∧ backendDownload (copy_or_move_files [("srcz", [("c.txt", [3])]), ("dstz", [])]
        "srcz" ["c.txt"] "dstz" false).st "dstz" "c.txt" = some [3] :=
  c8_copy_success [("srcz", [("c.txt", [3])]), ("dstz", [])] "srcz" "dstz" "c.txt"
    [3] [] (by decide) rfl (by decide) rfl (by decide)

/-! ## C9: a failed listing makes the bucket look empty to the handler -/

/-- C9: when listing the bucket fails on the backend (modelled: the bucket
does not exist), the swallow-errors helper returns the empty list, so the
delete-bucket handler — for either value of force — shows no confirmation
page, performs no batch remove, and proceeds directly to the backend
delete-bucket call, whose failure becomes the error redirect. -/
theorem c9_listing_failure (st : Storage) (bucket_name : String) (force : Bool)
    (h : findBucket st bucket_name = none) :
    delete_bucket st bucket_name force =
      { st := st
        trace := [Event.listObjects bucket_name, Event.deleteBucketCall bucket_name]
        val := Except.ok (Response.redirect (deleteErrorUrl bucket_name)) } := by
  simp [delete_bucket, list_bucket_objects, backendList, h, backendDeleteBucket]

/-- C9, witness: the theorem applied with force unset to a state without
the bucket. -/
theorem c9_listing_failure_witness :
    delete_bucket [("other", [])] "ghost" false =
      { st := [("other", [])]
        trace := [Event.listObjects "ghost", Event.deleteBucketCall "ghost"]
        val := Except.ok (Response.redirect (deleteErrorUrl "ghost")) } :=
  c9_listing_failure [("other", [])] "ghost" false rfl

/-! ## C10: an unguarded destination listing propagates its exception -/

/-- C10: when the destination listing raises a backend error (modelled: the
destination bucket does not exist) during a copy or move, the exception
escapes `copy_or_move_files` — which has no try block around the listing —
and then escapes the `/file-action` handler, instead of being turned into a
message or an error redirect. -/
theorem c10_dest_list_raises (st : Storage) (src_bucket filename action dest_bucket : String)
    (ha : action = "copy" ∨ action = "move")
    (hdest : dest_bucket ≠ "")
    (h : findBucket st dest_bucket = none) :
    (copy_or_move_files st src_bucket [filename] dest_bucket (action == "move")).val
      = Except.error ()
    ∧ (file_action st src_bucket filename action dest_bucket).val = Except.error () := by
  have h1 : copy_or_move_files st src_bucket [filename] dest_bucket (action == "move") =
      { st := st, trace := [Event.listObjects dest_bucket], val := Except.error () } := by
    simp [copy_or_move_files, hdest, copy_or_move_loop, backendList, h]
  have hne : action ≠ "delete" := by rcases ha with h' | h' <;> simp [h']
  constructor
  · simp [h1]
  · simp [file_action, hne, ha, h1]

/-- C10, witness: the theorem applied to a copy towards a missing
destination bucket. -/
theorem c10_dest_list_raises_witness :
    (copy_or_move_files [("srcb", [("a", [1])])] "srcb" ["a"] "ghostdest"
        ("copy" == "move")).val = Except.error ()
    ∧ (file_action [("srcb", [("a", [1])])] "srcb" "a" "copy" "ghostdest").val
      = Except.error () :=
  c10_dest_list_raises [("srcb", [("a", [1])])] "srcb" "a" "copy" "ghostdest"
    (Or.inl rfl) (by decide) rfl
